import Mathlib

/-
Verification of the managed-training-orchestration design of the workshop
repository (notebooks `06_train/advanced/bert/pytorch-finetune/Bert_PyTorch_HPO.ipynb`,
`03_ingest/07_Redshift_Unload_Parquet.ipynb`).

The notebooks configure SageMaker estimators and tuners; the orchestration
operations themselves (`submit`, `awaitCompletion`, `extractMetric`, the
search-result collection) are implemented by the external SageMaker SDK and
service, so they are modelled here from the design specification, while the
code that does live in the repository (`unload_redshift_table`, `str2bool`,
the concrete `parameters`, `metric_definitions` and `hyperparameter_ranges`
cells) is embedded directly from the source.
-/

namespace Workshop

/-! ## Metric extraction (`TrainingJobOrchestrator.extractMetric`)

The notebook defines
`metric_definitions = [{'Name': 'f1_score', 'Regex': '\'f1_\': ([0-9\\.]+)'}]`.
All metric patterns in the repository have this shape: a literal prefix
followed by a single capturing group `([0-9\.]+)`.  We model such a rule by
its literal prefix; the capture is the maximal nonempty run of characters in
`[0-9.]` after the literal, at the first text position where both match
(Python `re.search` semantics for this pattern family). -/

/-- A character matched by the numeric capture class `[0-9\.]` of the
notebook's metric regexes. -/
def isNumChar (c : Char) : Bool :=
  c.isDigit || c == '.'

/-- Modelled from the spec: a `MetricRule` is "a name and a pattern used to
extract a numeric value from unstructured service log text", the pattern
being a literal prefix followed by one numeric capturing group, as in the
notebook's `metric_definitions`. -/
structure MetricRule where
  name : String
  litPattern : String

/-- Scan `text` left to right; at the first position where `pat` is a prefix
and a nonempty numeric run follows it, return that run (the captured group). -/
def scanCapture (pat : List Char) : List Char → Option (List Char)
  | [] => none
  | c :: rest =>
    let cap := ((c :: rest).drop pat.length).takeWhile isNumChar
    if pat.isPrefixOf (c :: rest) && !cap.isEmpty then some cap
    else scanCapture pat rest

/-- Whether the rule's pattern (literal prefix, then at least one `[0-9.]`
character) matches anywhere in `text`. -/
def hasMatch (pat : List Char) : List Char → Bool
  | [] => false
  | c :: rest =>
    (pat.isPrefixOf (c :: rest)
      && !(((c :: rest).drop pat.length).takeWhile isNumChar).isEmpty)
    || hasMatch pat rest

/-- Modelled from the spec: `extractMetric(rawLogText, rule)` "applies the
rule's pattern to rawLogText; returns the first match's captured numeric
group, or absent (`none`) if no match — never raises". -/
def extractMetric (rawLogText : String) (rule : MetricRule) : Option String :=
  (scanCapture rule.litPattern.data rawLogText.data).map (fun l => String.mk l)

/-- Whether the rule's pattern matches the raw log text at all. -/
def ruleMatches (rule : MetricRule) (rawLogText : String) : Bool :=
  hasMatch rule.litPattern.data rawLogText.data

/-- A single quote character, used to spell out the string literals of the
notebook's regexes and log lines. -/
def sq : Char := '\''

/-- The GLUE metric rule of the notebook:
`{'Name': 'f1_score', 'Regex': '\'f1_\': ([0-9\\.]+)'}` — literal prefix
`'f1_': ` followed by the numeric capture. -/
def glueF1Rule : MetricRule :=
  { name := "f1_score"
    litPattern := String.mk [sq, 'f', '1', '_', sq, ':', ' '] }

theorem scanCapture_eq_none_iff (pat : List Char) :
    ∀ text, scanCapture pat text = none ↔ hasMatch pat text = false := by
  intro text
  induction text with
  | nil => simp [scanCapture, hasMatch]
  | cons c rest ih =>
    simp only [scanCapture, hasMatch]
    by_cases h : (pat.isPrefixOf (c :: rest)
        && !(((c :: rest).drop pat.length).takeWhile isNumChar).isEmpty) = true
    · simp [h]
    · simp only [Bool.not_eq_true] at h
      simp [h, ih]

theorem scanCapture_cons_head_ne (p0 c : Char) (ptail rest : List Char)
    (h : c ≠ p0) :
    scanCapture (p0 :: ptail) (c :: rest) = scanCapture (p0 :: ptail) rest := by
  have hc : (p0 == c) = false := by
    cases hpc : (p0 == c) with
    | false => rfl
    | true => exact absurd (eq_of_beq hpc).symm h
  simp [scanCapture, List.isPrefixOf, hc]

theorem scanCapture_skip (p0 : Char) (ptail : List Char) :
    ∀ a b : List Char, (∀ c ∈ a, c ≠ p0) →
      scanCapture (p0 :: ptail) (a ++ b) = scanCapture (p0 :: ptail) b := by
  intro a
  induction a with
  | nil => intro b _; rfl
  | cons c a ih =>
    intro b ha
    rw [List.cons_append,
      scanCapture_cons_head_ne p0 c ptail (a ++ b) (ha c (by simp))]
    exact ih b (fun x hx => ha x (by simp [hx]))

theorem scanCapture_at_occurrence (p0 : Char) (ptail cap b : List Char)
    (hcap : ∀ c ∈ cap, isNumChar c = true) (hne : cap ≠ [])
    (hb : b.takeWhile isNumChar = []) :
    scanCapture (p0 :: ptail) ((p0 :: ptail) ++ (cap ++ b)) = some cap := by
  have hpre : (p0 :: ptail).isPrefixOf ((p0 :: ptail) ++ (cap ++ b)) = true := by
    rw [List.isPrefixOf_iff_prefix]
    exact List.prefix_append _ _
  have hdrop : ((p0 :: ptail) ++ (cap ++ b)).drop (p0 :: ptail).length = cap ++ b :=
    List.drop_left _ _
  have hemp : cap.isEmpty = false := by
    obtain ⟨x, xs, rfl⟩ := List.exists_cons_of_ne_nil hne
    rfl
  rw [List.cons_append]
  simp only [scanCapture]
  rw [← List.cons_append, hdrop, List.takeWhile_append_of_pos hcap, hb,
    List.append_nil, hpre, hemp]
  rfl

/-- C5: for every log text and every metric rule, `extractMetric` is a total
function whose every result is either a captured value or absent: a pattern
miss yields `none` ("absent") rather than an error, and a match yields the
captured group; no exception value exists in its codomain. -/
theorem extractMetric_never_fails (raw : String) (rule : MetricRule) :
    (extractMetric raw rule = none ↔ ruleMatches rule raw = false)
    ∧ (extractMetric raw rule = none ∨ ∃ v, extractMetric raw rule = some v) := by
  constructor
  · unfold extractMetric ruleMatches
    rw [Option.map_eq_none']
    exact scanCapture_eq_none_iff _ _
  · cases h : extractMetric raw rule with
    | none => exact Or.inl rfl
    | some v => exact Or.inr ⟨v, rfl⟩

/-- C1 (counterexample): the notebook's own evaluation log line
`'f1_': 0.8941176470588236` contains the substring `'f1_': 0.894`, yet
`extractMetric` with the GLUE rule returns the full greedy capture
`0.8941176470588236`, not `0.894`. -/
theorem extractMetric_glue_overcapture :
    (∃ a b : String,
      ("'f1_': 0.8941176470588236" : String) = a ++ "'f1_': 0.894" ++ b)
    ∧ extractMetric "'f1_': 0.8941176470588236" glueF1Rule
        = some "0.8941176470588236"
    ∧ ("0.8941176470588236" : String) ≠ "0.894" :=
  ⟨⟨"", "1176470588236", by decide⟩, by decide, by decide⟩

/-- C1 (amended): on log text whose occurrence of `'f1_': 0.894` is the first
match of the GLUE pattern and is followed by no further numeric character,
`extractMetric` returns `0.894`; on any log text the pattern does not match it
returns absent (`none`). -/
theorem extractMetric_glue_example (p s raw : String)
    (hp : ∀ c ∈ p.data, c ≠ sq)
    (hs : s.data.takeWhile isNumChar = [])
    (hraw : ruleMatches glueF1Rule raw = false) :
    extractMetric (p ++ "'f1_': 0.894" ++ s) glueF1Rule = some "0.894"
    ∧ extractMetric raw glueF1Rule = none := by
  constructor
  · unfold extractMetric
    have hlit : ("'f1_': 0.894" : String).data
        = (sq :: ['f', '1', '_', sq, ':', ' ']) ++ ("0.894" : String).data := by
      decide
    have hdata : (p ++ "'f1_': 0.894" ++ s).data
        = p.data ++ ((sq :: ['f', '1', '_', sq, ':', ' '])
            ++ (("0.894" : String).data ++ s.data)) := by
      rw [String.data_append, String.data_append, hlit, List.append_assoc,
        List.append_assoc]
    have hpat : glueF1Rule.litPattern.data = sq :: ['f', '1', '_', sq, ':', ' '] :=
      rfl
    rw [hdata, hpat,
      scanCapture_skip sq ['f', '1', '_', sq, ':', ' '] p.data _ hp,
      scanCapture_at_occurrence sq ['f', '1', '_', sq, ':', ' ']
        ("0.894" : String).data s.data (by decide) (by decide) hs]
    rfl
  · exact (extractMetric_never_fails raw glueF1Rule).1.mpr hraw

theorem extractMetric_glue_example_witness :
    (∀ c ∈ ("Evaluation result = " : String).data, c ≠ sq)
    ∧ (("; end" : String).data.takeWhile isNumChar = [])
    ∧ (ruleMatches glueF1Rule "loss: 0.3" = false)
    ∧ (extractMetric ("Evaluation result = " ++ "'f1_': 0.894" ++ "; end")
          glueF1Rule = some "0.894"
        ∧ extractMetric "loss: 0.3" glueF1Rule = none) :=
  ⟨by decide, by decide, by decide,
    extractMetric_glue_example "Evaluation result = " "; end" "loss: 0.3"
      (by decide) (by decide) (by decide)⟩

/-! ## Job specification and submission (`TrainingJobOrchestrator.submit`)

The notebook builds a flat `parameters` mapping of strings, numbers and
booleans and hands it to the `PyTorch` estimator together with the entry
point, source directory, role and instance descriptor; `estimator.fit`
issues the remote job-creation request.  The hyperparameter values are
modelled as the Python values the notebook uses: scalars (string, number,
boolean) or nested structures (list, dict). -/

/-- A hyperparameter value as the notebook passes it: a primitive scalar or a
nested structure. -/
inductive HPValue where
  | str (s : String)
  | num (q : Rat)
  | bool (b : Bool)
  | list (xs : List HPValue)
  | dict (kvs : List (String × HPValue))

/-- Modelled from the spec: "hyperparameter values must be representable as
primitive scalars; no nested structures". -/
def HPValue.isScalar : HPValue → Bool
  | .str _ => true
  | .num _ => true
  | .bool _ => true
  | .list _ => false
  | .dict _ => false

/-- Modelled from the spec's data model: a `JobSpec` "identifies an entry
point script, a source bundle reference, a mapping of hyperparameter name to
scalar value, an execution target descriptor (instance type/count), and a
role/credential reference", as the notebook's `PyTorch(...)` calls do. -/
structure JobSpec where
  entryPoint : String
  sourceDir : String
  hyperparameters : List (String × HPValue)
  role : String
  frameworkVersion : String
  trainInstanceCount : Nat
  trainInstanceType : String

/-- The error taxonomy of the spec's section 7. -/
inductive OrchError where
  | validationError
  | remoteServiceError
  | timeoutError
deriving DecidableEq

/-- The orchestrator's bookkeeping: the next fresh job identifier and the
remote job-creation requests issued so far, in submission order. -/
structure OrchState where
  nextId : Nat
  submitted : List (Nat × JobSpec)

/-- The spec's validation of a `JobSpec`: every hyperparameter value is a
primitive scalar. -/
def validSpec (spec : JobSpec) : Bool :=
  spec.hyperparameters.all (fun kv => kv.2.isScalar)

/-- Modelled from the spec: `submit(spec)` "validates that all hyperparameter
values are primitive scalars; fails with ValidationError if not. Side effect:
issues one remote job-creation request. Returns a handle (job identifier)
immediately; does not block."  The issued requests are recorded in the
returned state. -/
def submit (st : OrchState) (spec : JobSpec) : Except OrchError Nat × OrchState :=
  if validSpec spec then
    (.ok st.nextId, ⟨st.nextId + 1, st.submitted ++ [(st.nextId, spec)]⟩)
  else
    (.error .validationError, st)

/-- The GLUE `parameters` mapping of the notebook (MRPC example):
strings, numbers and booleans only. -/
def glueParameters : List (String × HPValue) :=
  [("model_type", .str "bert"),
   ("model_name_or_path", .str "bert-base-uncased"),
   ("task_name", .str "MRPC"),
   ("data_dir", .str "/opt/ml/input/data/training"),
   ("output_dir", .str "/opt/ml/model"),
   ("num_train_epochs", .num 1),
   ("per_gpu_train_batch_size", .num 64),
   ("per_gpu_eval_batch_size", .num 64),
   ("save_steps", .num 150),
   ("logging_steps", .num 150),
   ("do_train", .bool true),
   ("do_eval", .bool true),
   ("do_lower_case", .bool true)]

/-- The notebook's `glue_estimator` job specification:
`PyTorch(entry_point='run_glue.py', source_dir='./train_scripts/',
hyperparameters=parameters, role=role, framework_version='1.1.0',
train_instance_count=1, train_instance_type='ml.p3.2xlarge')`. -/
def glueSpec : JobSpec :=
  { entryPoint := "run_glue.py"
    sourceDir := "./train_scripts/"
    hyperparameters := glueParameters
    role := "role"
    frameworkVersion := "1.1.0"
    trainInstanceCount := 1
    trainInstanceType := "ml.p3.2xlarge" }

/-- A variant of the GLUE spec with one nested (non-scalar) hyperparameter
value. -/
def badSpec : JobSpec :=
  { glueSpec with
      hyperparameters :=
        glueParameters ++ [("nested", .list [.num 1, .num 2])] }

/-- C2: a `JobSpec` with at least one non-scalar hyperparameter value is
rejected by `submit` with `validationError` and no remote job-creation
request is issued (the request log is unchanged); a `JobSpec` whose
hyperparameter values are all primitive scalars is accepted and yields a
handle. -/
theorem submit_validates_scalars (st₁ st₂ : OrchState) (spec₁ spec₂ : JobSpec)
    (h₁ : ∃ kv, kv ∈ spec₁.hyperparameters ∧ kv.2.isScalar = false)
    (h₂ : ∀ kv ∈ spec₂.hyperparameters, kv.2.isScalar = true) :
    ((submit st₁ spec₁).1 = .error .validationError
      ∧ ((submit st₁ spec₁).2).submitted = st₁.submitted)
    ∧ ∃ h, (submit st₂ spec₂).1 = .ok h := by
  constructor
  · have hv : validSpec spec₁ = false := by
      obtain ⟨kv, hmem, hbad⟩ := h₁
      unfold validSpec
      rw [List.all_eq_false]
      exact ⟨kv, hmem, by simp [hbad]⟩
    constructor
    · simp [submit, hv]
    · simp [submit, hv]
  · have hv : validSpec spec₂ = true := by
      unfold validSpec
      rw [List.all_eq_true]
      exact h₂
    exact ⟨st₂.nextId, by simp [submit, hv]⟩

theorem submit_validates_scalars_witness :
    (∃ kv, kv ∈ badSpec.hyperparameters ∧ kv.2.isScalar = false)
    ∧ (∀ kv ∈ glueSpec.hyperparameters, kv.2.isScalar = true)
    ∧ (((submit ⟨0, []⟩ badSpec).1 = .error .validationError
          ∧ ((submit ⟨0, []⟩ badSpec).2).submitted = [])
        ∧ ∃ h, (submit ⟨0, []⟩ glueSpec).1 = .ok h) :=
  have hmem : ("nested", HPValue.list [.num 1, .num 2]) ∈ badSpec.hyperparameters := by
    simp [badSpec, glueParameters]
  have hall : ∀ kv ∈ glueSpec.hyperparameters, kv.2.isScalar = true := by decide
  ⟨⟨_, hmem, rfl⟩, hall,
    submit_validates_scalars ⟨0, []⟩ ⟨0, []⟩ badSpec glueSpec ⟨_, hmem, rfl⟩ hall⟩

/-- C3: for every valid `JobSpec`, `submit` returns a job handle immediately
(as a total function of the orchestrator state alone), issues exactly one
job-creation request carrying the input spec unchanged, and leaves all
previously issued requests untouched. -/
theorem submit_nonblocking_frame (st : OrchState) (spec : JobSpec)
    (h : validSpec spec = true) :
    ∃ hdl, (submit st spec).1 = .ok hdl
      ∧ ((submit st spec).2).submitted = st.submitted ++ [(hdl, spec)] :=
  ⟨st.nextId, by simp [submit, h], by simp [submit, h]⟩

theorem submit_nonblocking_frame_witness :
    validSpec glueSpec = true
    ∧ ∃ hdl, (submit ⟨0, []⟩ glueSpec).1 = .ok hdl
        ∧ ((submit ⟨0, []⟩ glueSpec).2).submitted = [] ++ [(hdl, glueSpec)] :=
  ⟨by decide, submit_nonblocking_frame ⟨0, []⟩ glueSpec (by decide)⟩

/-! ## Remote job status, polling and completion (`awaitCompletion`)

The notebook's `tuner.fit(...)` / `tuner.wait()` pair delegates polling to
the external service; `awaitCompletion` is modelled from the spec: it blocks,
"periodically polling remote status until a terminal state or timeout", fails
with `timeoutError` when no terminal state is reached within `timeout`, and
reports the remote job's own failure inside the returned `JobResult`, not as
an exception. -/

/-- A terminal state: "a job/search status from which no further transition
occurs (succeeded, failed, stopped)". -/
inductive TerminalStatus where
  | succeeded
  | failed
  | stopped
deriving DecidableEq

/-- A remote job status as the status API reports it. -/
inductive JobStatus where
  | inProgress
  | succeeded
  | failed
  | stopped
deriving DecidableEq

def TerminalStatus.toJobStatus : TerminalStatus → JobStatus
  | .succeeded => .succeeded
  | .failed => .failed
  | .stopped => .stopped

def JobStatus.isTerminal : JobStatus → Bool
  | .inProgress => false
  | .succeeded => true
  | .failed => true
  | .stopped => true

/-- Modelled from the spec: a remote job as the external service runs it — it
reaches its terminal outcome at `finishTime` and exposes raw log text. -/
structure RemoteJob where
  jobId : Nat
  finishTime : Nat
  outcome : TerminalStatus
  logText : String

/-- The remote job-status API at poll time `t`. -/
def statusAt (job : RemoteJob) (t : Nat) : JobStatus :=
  if job.finishTime ≤ t then job.outcome.toJobStatus else .inProgress

/-- The terminal outcome visible at poll time `t`, if any. -/
def statusOutcome (job : RemoteJob) (t : Nat) : Option TerminalStatus :=
  if job.finishTime ≤ t then some job.outcome else none

/-- Modelled from the spec: a `JobResult` holds the "job identifier, terminal
status (succeeded/failed/stopped), and a mapping of metric name to extracted
numeric value (absent if extraction failed)". -/
structure JobResult where
  jobId : Nat
  status : TerminalStatus
  metrics : List (String × Option String)
deriving DecidableEq

/-- The metrics mapping of a finished job: each rule's name paired with its
best-effort extraction from the job's log text. -/
def jobMetrics (rules : List MetricRule) (job : RemoteJob) :
    List (String × Option String) :=
  rules.map (fun r => (r.name, extractMetric job.logText r))

/-- The polling loop of `awaitCompletion`: the `k`-th poll happens at time
`min (k * interval) timeout` (fixed-interval polling, capped at the
deadline); when the fuel runs out a final poll at the deadline decides. -/
def pollLoop (job : RemoteJob) (rules : List MetricRule)
    (interval timeout : Nat) : Nat → Nat → Except OrchError JobResult
  | _, 0 =>
    match statusOutcome job timeout with
    | some s => .ok ⟨job.jobId, s, jobMetrics rules job⟩
    | none => .error .timeoutError
  | k, fuel + 1 =>
    match statusOutcome job (min (k * interval) timeout) with
    | some s => .ok ⟨job.jobId, s, jobMetrics rules job⟩
    | none =>
      if timeout ≤ min (k * interval) timeout then .error .timeoutError
      else pollLoop job rules interval timeout (k + 1) fuel

/-- Modelled from the spec: `awaitCompletion(handle, pollInterval, timeout)`
"blocks the calling thread, periodically polling remote status until a
terminal state or timeout; fails with TimeoutError if the job does not reach
a terminal state within timeout". -/
def awaitCompletion (job : RemoteJob) (rules : List MetricRule)
    (interval timeout : Nat) : Except OrchError JobResult :=
  pollLoop job rules interval timeout 0 (timeout + 1)

theorem pollLoop_of_late (job : RemoteJob) (rules : List MetricRule)
    (interval timeout : Nat) (h : timeout < job.finishTime) :
    ∀ fuel k, pollLoop job rules interval timeout k fuel = .error .timeoutError := by
  intro fuel
  induction fuel with
  | zero =>
    intro k
    have : statusOutcome job timeout = none := by
      unfold statusOutcome
      simp [Nat.not_le.mpr h]
    simp [pollLoop, this]
  | succ fuel ih =>
    intro k
    have hle : min (k * interval) timeout ≤ timeout := Nat.min_le_right _ _
    have : statusOutcome job (min (k * interval) timeout) = none := by
      unfold statusOutcome
      simp [Nat.not_le.mpr (Nat.lt_of_le_of_lt hle h)]
    simp only [pollLoop, this]
    by_cases hb : timeout ≤ min (k * interval) timeout
    · simp [hb]
    · simp [hb, ih]

theorem pollLoop_of_finished (job : RemoteJob) (rules : List MetricRule)
    (interval timeout : Nat) (h : job.finishTime ≤ timeout) :
    ∀ fuel k, pollLoop job rules interval timeout k fuel
      = .ok ⟨job.jobId, job.outcome, jobMetrics rules job⟩ := by
  intro fuel
  induction fuel with
  | zero =>
    intro k
    have : statusOutcome job timeout = some job.outcome := by
      unfold statusOutcome
      simp [h]
    simp [pollLoop, this]
  | succ fuel ih =>
    intro k
    by_cases hft : job.finishTime ≤ min (k * interval) timeout
    · have : statusOutcome job (min (k * interval) timeout) = some job.outcome := by
        unfold statusOutcome
        simp [hft]
      simp [pollLoop, this]
    · have hnone : statusOutcome job (min (k * interval) timeout) = none := by
        unfold statusOutcome
        simp [hft]
      have hb : ¬ timeout ≤ min (k * interval) timeout := by
        intro hb
        have heq : min (k * interval) timeout = timeout :=
          Nat.le_antisymm (Nat.min_le_right _ _) hb
        exact hft (by rw [heq]; exact h)
      simp [pollLoop, hnone, hb, ih]

/-- C4: `awaitCompletion` fails with `timeoutError` exactly when the remote
job does not reach a terminal state within the caller's `timeout`; with a
sufficient timeout it returns a `JobResult` carrying the job's terminal
status — in particular a remote failure (`outcome = failed`) is reported
inside the result, never raised as an exception. -/
theorem awaitCompletion_terminal (job : RemoteJob) (rules : List MetricRule)
    (interval timeout : Nat) :
    (awaitCompletion job rules interval timeout = .error .timeoutError
      ↔ timeout < job.finishTime)
    ∧ (awaitCompletion job rules interval timeout
        = .ok ⟨job.jobId, job.outcome, jobMetrics rules job⟩
      ↔ job.finishTime ≤ timeout) := by
  by_cases h : job.finishTime ≤ timeout
  · have hok := pollLoop_of_finished job rules interval timeout h (timeout + 1) 0
    unfold awaitCompletion
    rw [hok]
    constructor
    · constructor
      · intro hcontra
        exact absurd hcontra (by simp)
      · intro hcontra
        exact absurd h (Nat.not_le.mpr hcontra)
    · simp [h]
  · have hlt : timeout < job.finishTime := Nat.not_le.mp h
    have herr := pollLoop_of_late job rules interval timeout hlt (timeout + 1) 0
    unfold awaitCompletion
    rw [herr]
    constructor
    · simp [hlt]
    · constructor
      · intro hcontra
        exact absurd hcontra (by simp)
      · intro hcontra
        exact absurd hcontra h

/-! ## Independence of submitted jobs (shared-state freedom) -/

/-- The remote world a caller observes: the current time and the jobs the
service runs, keyed by handle.  Polling reads it; nothing writes it. -/
structure RemoteWorld where
  time : Nat
  jobs : List (Nat × RemoteJob)

/-- The remote job-status API as an operation on the world: it returns the
polled job's status and the world it leaves behind. -/
def pollStatus (w : RemoteWorld) (hdl : Nat) : Option JobStatus × RemoteWorld :=
  (match w.jobs.find? (fun kv => kv.1 == hdl) with
   | some kv => some (statusAt kv.2 w.time)
   | none => none,
   w)

/-- C7: submitting one valid `JobSpec` twice yields two distinct handles, and
polling the status of one handle changes nothing: the world after a poll is
the world before it, so the observed status of any other handle is
unaffected — there is no shared mutable state between
`submit`/`awaitCompletion` pairs. -/
theorem submit_twice_independent (st : OrchState) (spec : JobSpec)
    (h : validSpec spec = true) :
    (∃ h₁ h₂,
      (submit st spec).1 = .ok h₁
      ∧ (submit ((submit st spec).2) spec).1 = .ok h₂
      ∧ h₁ ≠ h₂)
    ∧ (∀ (w : RemoteWorld) (a b : Nat),
        (pollStatus w a).2 = w
        ∧ (pollStatus ((pollStatus w a).2) b).1 = (pollStatus w b).1) := by
  refine ⟨⟨st.nextId, st.nextId + 1, ?_, ?_, by omega⟩, fun w a b => ⟨rfl, rfl⟩⟩
  · simp [submit, h]
  · simp [submit, h]

/-- The two-parameter spec of the claim's scenario:
`{model_type: "bert", num_train_epochs: 1, do_train: true}`. -/
def bertSmallSpec : JobSpec :=
  { glueSpec with
      hyperparameters :=
        [("model_type", .str "bert"),
         ("num_train_epochs", .num 1),
         ("do_train", .bool true)] }

theorem submit_twice_independent_witness :
    validSpec bertSmallSpec = true
    ∧ ((∃ h₁ h₂,
          (submit ⟨0, []⟩ bertSmallSpec).1 = .ok h₁
          ∧ (submit ((submit ⟨0, []⟩ bertSmallSpec).2) bertSmallSpec).1 = .ok h₂
          ∧ h₁ ≠ h₂)
        ∧ (∀ (w : RemoteWorld) (a b : Nat),
            (pollStatus w a).2 = w
            ∧ (pollStatus ((pollStatus w a).2) b).1 = (pollStatus w b).1)) :=
  ⟨by decide, submit_twice_independent ⟨0, []⟩ bertSmallSpec (by decide)⟩

/-! ## Search-result collection (`SearchOrchestrator`)

The notebook's `hpo_report` cell recovers submission order from the analytics
dataframe (`hpo_report['job_id'] = len(hpo_report) - hpo_report.index`
followed by `sort_values(by='job_id')`).  The orchestrator is modelled from
the spec: it collects the per-trial results the external service reports as
completed into a sequence sorted by submission order. -/

/-- A completed trial as the external service reports it: its submission
index, the hyperparameter values the optimizer chose, and the extracted
objective metric value (absent when extraction failed). -/
structure TrialReport where
  submissionIndex : Nat
  hyperparams : List (String × HPValue)
  metricValue : Option String

/-- Submission order on trial reports. -/
def submissionLE (a b : TrialReport) : Prop :=
  a.submissionIndex ≤ b.submissionIndex

instance : DecidableRel submissionLE := fun a b => Nat.decLe a.submissionIndex b.submissionIndex

instance : IsTotal TrialReport submissionLE :=
  ⟨fun a b => Nat.le_total a.submissionIndex b.submissionIndex⟩

instance : IsTrans TrialReport submissionLE :=
  ⟨fun _ _ _ h₁ h₂ => Nat.le_trans h₁ h₂⟩

/-- Modelled from the spec: the `SearchOrchestrator` "return[s] a sequence of
(hyperparameter values, metric value) pairs sorted by submission order for
post-hoc analysis" from the trials the external service reports as
completed. -/
def collectSearchResults (completed : List TrialReport) :
    List (List (String × HPValue) × Option String) :=
  (List.insertionSort submissionLE completed).map
    (fun tr => (tr.hyperparams, tr.metricValue))

/-- C6: the returned sequence has as many entries as the service reports
completed trials, it is sorted by submission order, and it is the same
sequence for every completion order (any permutation of the service's report
with distinct submission indices yields the same output). -/
theorem searchResults_ordered (completed other : List TrialReport)
    (hperm : other.Perm completed)
    (hnodup : (completed.map (fun tr => tr.submissionIndex)).Nodup) :
    (collectSearchResults completed).length = completed.length
    ∧ List.Sorted submissionLE (List.insertionSort submissionLE completed)
    ∧ collectSearchResults other = collectSearchResults completed := by
  refine ⟨?_, List.sorted_insertionSort submissionLE completed, ?_⟩
  · simp [collectSearchResults, List.length_insertionSort]
  · have hp : (List.insertionSort submissionLE other).Perm
        (List.insertionSort submissionLE completed) :=
      ((List.perm_insertionSort submissionLE other).trans hperm).trans
        (List.perm_insertionSort submissionLE completed).symm
    have hne : completed.Pairwise
        (fun a b => a.submissionIndex ≠ b.submissionIndex) := by
      have := hnodup
      unfold List.Nodup at this
      exact (List.pairwise_map).mp this
    have hsymm : ∀ {x y : TrialReport},
        x.submissionIndex ≠ y.submissionIndex
        → y.submissionIndex ≠ x.submissionIndex :=
      fun h => h.symm
    have hne₂ : (List.insertionSort submissionLE completed).Pairwise
        (fun a b => a.submissionIndex ≠ b.submissionIndex) :=
      ((List.perm_insertionSort submissionLE completed).pairwise_iff hsymm).mpr hne
    have hne₁ : (List.insertionSort submissionLE other).Pairwise
        (fun a b => a.submissionIndex ≠ b.submissionIndex) :=
      (((List.perm_insertionSort submissionLE other).trans hperm).pairwise_iff
        hsymm).mpr hne
    have hlt₁ : (List.insertionSort submissionLE other).Pairwise
        (fun a b => a.submissionIndex < b.submissionIndex) :=
      ((List.sorted_insertionSort submissionLE other).and hne₁).imp
        (fun h => Nat.lt_of_le_of_ne h.1 h.2)
    have hlt₂ : (List.insertionSort submissionLE completed).Pairwise
        (fun a b => a.submissionIndex < b.submissionIndex) :=
      ((List.sorted_insertionSort submissionLE completed).and hne₂).imp
        (fun h => Nat.lt_of_le_of_ne h.1 h.2)
    haveI : IsAntisymm TrialReport
        (fun a b => a.submissionIndex < b.submissionIndex) :=
      ⟨fun _ _ h₁ h₂ => (Nat.lt_asymm h₁ h₂).elim⟩
    have heq : List.insertionSort submissionLE other
        = List.insertionSort submissionLE completed :=
      List.eq_of_perm_of_sorted hp hlt₁ hlt₂
    unfold collectSearchResults
    rw [heq]

theorem searchResults_ordered_witness :
    ([⟨1, [("learning_rate", HPValue.num 2)], none⟩,
      ⟨0, [("learning_rate", HPValue.num 1)], some "0.9"⟩] : List TrialReport).Perm
      [⟨0, [("learning_rate", HPValue.num 1)], some "0.9"⟩,
       ⟨1, [("learning_rate", HPValue.num 2)], none⟩]
    ∧ (([⟨0, [("learning_rate", HPValue.num 1)], some "0.9"⟩,
         ⟨1, [("learning_rate", HPValue.num 2)], none⟩] : List TrialReport).map
          (fun tr => tr.submissionIndex)).Nodup
    ∧ ((collectSearchResults
          [⟨0, [("learning_rate", HPValue.num 1)], some "0.9"⟩,
           ⟨1, [("learning_rate", HPValue.num 2)], none⟩]).length
        = ([⟨0, [("learning_rate", HPValue.num 1)], some "0.9"⟩,
            ⟨1, [("learning_rate", HPValue.num 2)], none⟩] : List TrialReport).length
      ∧ List.Sorted submissionLE
          (List.insertionSort submissionLE
            [⟨0, [("learning_rate", HPValue.num 1)], some "0.9"⟩,
             ⟨1, [("learning_rate", HPValue.num 2)], none⟩])
      ∧ collectSearchResults
          [⟨1, [("learning_rate", HPValue.num 2)], none⟩,
           ⟨0, [("learning_rate", HPValue.num 1)], some "0.9"⟩]
        = collectSearchResults
            [⟨0, [("learning_rate", HPValue.num 1)], some "0.9"⟩,
             ⟨1, [("learning_rate", HPValue.num 2)], none⟩]) :=
  have hperm :
      ([⟨1, [("learning_rate", HPValue.num 2)], none⟩,
        ⟨0, [("learning_rate", HPValue.num 1)], some "0.9"⟩] : List TrialReport).Perm
        [⟨0, [("learning_rate", HPValue.num 1)], some "0.9"⟩,
         ⟨1, [("learning_rate", HPValue.num 2)], none⟩] :=
    List.Perm.swap _ _ _
  ⟨hperm, by decide, searchResults_ordered _ _ hperm (by decide)⟩

/-! ## Search-space validation (`SearchSpace`)

The notebook's range is
`hyperparameter_ranges = {'learning_rate': ContinuousParameter(5e-06, 5e-04,
scaling_type="Logarithmic")}`. -/

/-- A hyperparameter range descriptor: continuous, integer, or categorical,
continuous ranges carrying the notebook's scaling hint. -/
inductive ParameterRange where
  | continuous (lo hi : Rat) (scalingType : String)
  | integer (lo hi : Int)
  | categorical (values : List String)
deriving DecidableEq

/-- Modelled from the spec's invariant: "ranges must be non-empty and, for
continuous/integer, lower bound < upper bound". -/
def ParameterRange.wellFormed : ParameterRange → Bool
  | .continuous lo hi _ => decide (lo < hi)
  | .integer lo hi => decide (lo < hi)
  | .categorical values => !values.isEmpty

/-- Modelled from the spec: the orchestrator accepts a `SearchSpace` only
when every range satisfies the invariant, failing with `validationError`
otherwise. -/
def acceptSearchSpace (ss : List (String × ParameterRange)) :
    Except OrchError (List (String × ParameterRange)) :=
  if ss.all (fun kv => kv.2.wellFormed) then .ok ss
  else .error .validationError

/-- The notebook's GLUE search space:
`{'learning_rate': ContinuousParameter(5e-06, 5e-04, scaling_type="Logarithmic")}`. -/
def glueRanges : List (String × ParameterRange) :=
  [("learning_rate", .continuous (mkRat 5 1000000) (mkRat 5 10000) "Logarithmic")]

/-- C8: every search space the orchestrator accepts satisfies the invariant —
each range is well formed (non-empty; continuous/integer with lower bound
strictly below upper bound), and the accepted space is the given one. -/
theorem acceptSearchSpace_invariant (ss accepted : List (String × ParameterRange))
    (h : acceptSearchSpace ss = .ok accepted) :
    accepted = ss ∧ ∀ kv ∈ accepted, kv.2.wellFormed = true := by
  unfold acceptSearchSpace at h
  by_cases hall : ss.all (fun kv => kv.2.wellFormed) = true
  · rw [if_pos hall] at h
    cases h
    exact ⟨rfl, List.all_eq_true.mp hall⟩
  · rw [if_neg hall] at h
    cases h

theorem acceptSearchSpace_invariant_witness :
    acceptSearchSpace glueRanges = .ok glueRanges
    ∧ (glueRanges = glueRanges
        ∧ ∀ kv ∈ glueRanges, kv.2.wellFormed = true) :=
  ⟨rfl, acceptSearchSpace_invariant glueRanges glueRanges rfl⟩

/-! ## Redshift unload (notebook `03_ingest/07_Redshift_Unload_Parquet.ipynb`)

Embedded directly from the source.  `unload_redshift_table` iterates
`for year in range(start_year, end_year+1, 1)`, formats one UNLOAD statement
per year from `current_table_name = table_name_prefix+'_'+str(year)`, and
prints it; the `session.execute(statement)` and `session.commit()` lines are
commented out in the source, so the database session is never used.  Printing
is modelled as the returned list of printed strings, the session as a value
that passes through. -/

/-- A database session, modelled by what executing and committing would
change: the statements executed and the number of commits. -/
structure DbSession where
  executed : List String
  commits : Nat
deriving DecidableEq

/-- Python `range(start, stop, 1)` over integers. -/
def pythonRange (start stop : Int) : List Int :=
  (List.range (stop - start).toNat).map (fun (i : Nat) => start + (i : Int))

/-- The UNLOAD statement the source formats for one year:
`statement = """ ... FROM redshift.{}') TO '{}/{}/' IAM_ROLE '{}' ... """
.format(current_table_name, s3_path, year, iam_role)` with
`current_table_name = table_name_prefix+'_'+str(year)`. -/
def unloadStatement (tableNamePrefix : String) (year : Int)
    (s3Path iamRole : String) : String :=
  "\n            UNLOAD ('SELECT marketplace, customer_id, review_id, product_id, product_parent, \n                product_title, product_category, star_rating, helpful_votes, total_votes, \n                vine, verified_purchase, review_headline, review_body, review_date, year \n            "
    ++ ("FROM redshift." ++ tableNamePrefix ++ "_" ++ toString year)
    ++ "')\n            "
    ++ ("TO '" ++ s3Path ++ "/" ++ toString year ++ "/'")
    ++ "\n            IAM_ROLE '" ++ iamRole
    ++ "'\n            PARQUET PARALLEL ON \n            PARTITION BY (product_category)\n        "

/-- `unload_redshift_table(session, table_name_prefix, start_year, end_year,
s3_path, iam_role)` from the source: prints one statement per year and a
final `Done.`; the session is untouched (`session.execute` and
`session.commit` are commented out). -/
def unload_redshift_table (session : DbSession) (tableNamePrefix : String)
    (startYear endYear : Int) (s3Path iamRole : String) :
    List String × DbSession :=
  ((pythonRange startYear (endYear + 1)).map
      (fun year => unloadStatement tableNamePrefix year s3Path iamRole)
    ++ ["Done."],
   session)

/-- C9: `unload_redshift_table` prints one UNLOAD statement per year of
`range(start_year, end_year+1)` — that is `(end_year + 1 - start_year)`
statements, `end_year - start_year + 1` of them when the range is non-empty
and none exactly when `start_year > end_year` — each targeting table
`redshift.<prefix>_<year>` and path `<s3_path>/<year>/`, followed by `Done.`;
the database session comes back unchanged, so no statement is executed and
nothing is committed. -/
theorem unload_redshift_table_prints_only (session : DbSession)
    (tableNamePrefix : String) (startYear endYear : Int)
    (s3Path iamRole : String) :
    ((unload_redshift_table session tableNamePrefix startYear endYear
        s3Path iamRole).2 = session)
    ∧ (unload_redshift_table session tableNamePrefix startYear endYear
        s3Path iamRole).1
      = (pythonRange startYear (endYear + 1)).map
          (fun year => unloadStatement tableNamePrefix year s3Path iamRole)
        ++ ["Done."]
    ∧ (pythonRange startYear (endYear + 1)).length
        = (endYear + 1 - startYear).toNat
    ∧ (pythonRange startYear (endYear + 1) = [] ↔ endYear < startYear)
    ∧ ∀ year : Int,
        (∃ a b : String,
          unloadStatement tableNamePrefix year s3Path iamRole
            = a ++ ("FROM redshift." ++ tableNamePrefix ++ "_" ++ toString year)
              ++ b)
        ∧ (∃ a b : String,
          unloadStatement tableNamePrefix year s3Path iamRole
            = a ++ ("TO '" ++ s3Path ++ "/" ++ toString year ++ "/'") ++ b) := by
  have hlen : (pythonRange startYear (endYear + 1)).length
      = (endYear + 1 - startYear).toNat := by
    simp only [pythonRange, List.length_map, List.length_range]
  refine ⟨rfl, rfl, hlen, ?_, ?_⟩
  · constructor
    · intro h
      have h0 : (pythonRange startYear (endYear + 1)).length = 0 := by
        rw [h]
        rfl
      rw [hlen] at h0
      omega
    · intro h
      have h0 : (endYear + 1 - startYear).toNat = 0 := by omega
      unfold pythonRange
      rw [h0]
      rfl
  · intro year
    constructor
    · refine ⟨"\n            UNLOAD ('SELECT marketplace, customer_id, review_id, product_id, product_parent, \n                product_title, product_category, star_rating, helpful_votes, total_votes, \n                vine, verified_purchase, review_headline, review_body, review_date, year \n            ",
        "')\n            "
          ++ ("TO '" ++ s3Path ++ "/" ++ toString year ++ "/'")
          ++ "\n            IAM_ROLE '" ++ iamRole
          ++ "'\n            PARQUET PARALLEL ON \n            PARTITION BY (product_category)\n        ", ?_⟩
      simp only [unloadStatement, String.append_assoc]
    · refine ⟨"\n            UNLOAD ('SELECT marketplace, customer_id, review_id, product_id, product_parent, \n                product_title, product_category, star_rating, helpful_votes, total_votes, \n                vine, verified_purchase, review_headline, review_body, review_date, year \n            "
          ++ ("FROM redshift." ++ tableNamePrefix ++ "_" ++ toString year)
          ++ "')\n            ",
        "\n            IAM_ROLE '" ++ iamRole
          ++ "'\n            PARQUET PARALLEL ON \n            PARTITION BY (product_category)\n        ", ?_⟩
      simp only [unloadStatement, String.append_assoc]

/-! ## The training scripts' boolean-argument parser (`str2bool`)

Embedded from the source (quoted in the notebook's markdown):

    def str2bool(v):
        if isinstance(v, bool):
            return v
        if v.lower() in ('yes', 'true', 't', 'y', '1'):
            return True
        elif v.lower() in ('no', 'false', 'f', 'n', '0'):
            return False
        else:
            raise argparse.ArgumentTypeError('Boolean value expected.')
-/

/-- An argument value as `argparse` hands it to `str2bool`: already a bool, or
a string. -/
inductive PyVal where
  | bool (b : Bool)
  | str (s : String)

/-- Python `str.lower()` on the ASCII strings involved. -/
def pyLower (s : String) : String :=
  String.mk (s.data.map Char.toLower)

/-- The strings `('yes', 'true', 't', 'y', '1')` accepted as True. -/
def trueStrings : List String := ["yes", "true", "t", "y", "1"]

/-- The strings `('no', 'false', 'f', 'n', '0')` accepted as False. -/
def falseStrings : List String := ["no", "false", "f", "n", "0"]

/-- `argparse.ArgumentTypeError('Boolean value expected.')`. -/
inductive ArgError where
  | argumentTypeError
deriving DecidableEq

/-- `str2bool` from the source: a bool passes through; a string is lowered
and looked up in the two tuples; anything else raises
`argparse.ArgumentTypeError`. -/
def str2bool : PyVal → Except ArgError Bool
  | .bool v => .ok v
  | .str v =>
    if pyLower v ∈ trueStrings then .ok true
    else if pyLower v ∈ falseStrings then .ok false
    else .error .argumentTypeError

/-- C10: `str2bool` returns a bool input unchanged; on a string it returns
`True` exactly when the lowered string is one of
`('yes', 'true', 't', 'y', '1')`, `False` exactly when it is one of
`('no', 'false', 'f', 'n', '0')`, and raises `ArgumentTypeError` exactly
otherwise — no other string is silently coerced. -/
theorem str2bool_spec (b : Bool) (s : String) :
    str2bool (.bool b) = .ok b
    ∧ (str2bool (.str s) = .ok true ↔ pyLower s ∈ trueStrings)
    ∧ (str2bool (.str s) = .ok false ↔ pyLower s ∈ falseStrings)
    ∧ (str2bool (.str s) = .error .argumentTypeError
        ↔ (pyLower s ∉ trueStrings ∧ pyLower s ∉ falseStrings)) := by
  have hdisj : ∀ x ∈ trueStrings, ¬ x ∈ falseStrings := by decide
  refine ⟨rfl, ?_, ?_, ?_⟩
  · by_cases h1 : pyLower s ∈ trueStrings
    · simp [str2bool, h1]
    · by_cases h2 : pyLower s ∈ falseStrings
      · simp [str2bool, h1, h2]
      · simp [str2bool, h1, h2]
  · by_cases h1 : pyLower s ∈ trueStrings
    · simp [str2bool, h1]
      exact hdisj _ h1
    · by_cases h2 : pyLower s ∈ falseStrings
      · simp [str2bool, h1, h2]
      · simp [str2bool, h1, h2]
  · by_cases h1 : pyLower s ∈ trueStrings
    · simp [str2bool, h1]
    · by_cases h2 : pyLower s ∈ falseStrings
      · simp [str2bool, h1, h2]
      · simp [str2bool, h1, h2]

end Workshop
